import Mathlib

/-!
Verification development for the RapidPark parking reservation service.

The definitions below are a shallow embedding of `app/reservations.py` and
`app/cartesia_agent.py`:
  * instants are modelled as rational numbers of seconds (Python `datetime`
    subtraction and comparison at second/microsecond granularity),
  * Python strings are modelled as `String` or `List Char` (all inputs the
    system handles are ASCII, where `Char.toLower`/`Char.toUpper` agree with
    Python `str.lower`/`str.upper`),
  * the SQL store of reservations is modelled as a `List Reservation`
    (SQLModel rows; the `id`/`created_at`/`phone` bookkeeping columns and the
    stored confirmation-code string are elided — no claim below depends on
    them, and the confirmation-code generator itself is modelled separately
    on a calendar datetime type),
  * HTTP failures (`HTTPException`) are modelled as `Except HTTPError`.
-/

/-! ## Generic character/list helpers (Python string primitives) -/

/-- Python whitespace for `str.strip` / regex `\s` (ASCII subset). -/
def isSpaceChar (c : Char) : Bool :=
  c = ' ' || c = '\t' || c = '\n' || c = '\r' || c = '\x0b' || c = '\x0c'

/-- Python `str.lower` (ASCII). -/
def toLowerList (l : List Char) : List Char := l.map Char.toLower

/-- Python `str.upper` (ASCII). -/
def toUpperList (l : List Char) : List Char := l.map Char.toUpper

/-- Python `str.strip()`. -/
def trimList (l : List Char) : List Char :=
  ((l.dropWhile isSpaceChar).reverse.dropWhile isSpaceChar).reverse

/-- Does `pat` occur at the head of `l`? -/
def hasPrefixCL : List Char → List Char → Bool
  | [], _ => true
  | _ :: _, [] => false
  | p :: ps, c :: cs => p = c && hasPrefixCL ps cs

/-- Python `pat in s` (substring containment). -/
def containsSub (pat : List Char) : List Char → Bool
  | [] => pat.isEmpty
  | c :: t => hasPrefixCL pat (c :: t) || containsSub pat t

/-- Is any of the `words` a substring of `l`? (Python `any(w in s for w in ws)`). -/
def containsAny (words : List (List Char)) (l : List Char) : Bool :=
  words.any (fun w => containsSub w l)

/-- Fuel-indexed worker for `replaceAll`; the fuel is the list length, and each
step consumes at least one character, so the fuel never runs out on the real
call. -/
def replaceAllAux (pat rep : List Char) : Nat → List Char → List Char
  | 0, l => l
  | _ + 1, [] => []
  | fuel + 1, c :: t =>
    if pat ≠ [] && hasPrefixCL pat (c :: t) then
      rep ++ replaceAllAux pat rep fuel ((c :: t).drop pat.length)
    else
      c :: replaceAllAux pat rep fuel t

/-- Python `s.replace(pat, rep)`: left-to-right, non-overlapping replacement of
every occurrence. -/
def replaceAll (pat rep l : List Char) : List Char :=
  replaceAllAux pat rep l.length l

/-- Python `s.split(c)` (single-character separator, keeps empty parts). -/
def splitOnChar (c : Char) : List Char → List (List Char)
  | [] => [[]]
  | x :: t =>
    match splitOnChar c t with
    | [] => [[]]
    | h :: r => if x = c then [] :: h :: r else (x :: h) :: r

/-- Digit string to number (no sign, base 10). -/
def digitsToNat (l : List Char) : Nat :=
  l.foldl (fun acc c => acc * 10 + (c.toNat - 48)) 0

/-- Parse a non-empty all-digit token. -/
def parseNatDigits (l : List Char) : Option Nat :=
  if l ≠ [] && l.all Char.isDigit then some (digitsToNat l) else none

/-! ## Configuration constants (env-var defaults in `app/reservations.py`) -/

def LOT_NAME : String := "RapidPark-A"
def LOT_CAPACITY : Nat := 50
def RATE_CENTS_PER_HOUR : Int := 400
def RATE_CENTS_PER_HOUR_CAR : Int := RATE_CENTS_PER_HOUR
def RATE_CENTS_PER_HOUR_MOTORCYCLE : Int := 300
def RATE_CENTS_PER_HOUR_TRUCK : Int := 600
def MIN_CHARGE_MINUTES : Int := 60

/-! ## Data model (`Reservation` rows and request/response schemas) -/

/-- A stored reservation row (SQLModel `Reservation`).  Instants are seconds
as `ℚ`; `id`, `created_at`, `phone` and the stored `confirmation_code` string
are elided (database bookkeeping / modelled separately). -/
structure Reservation where
  customer_name : String
  email : Option String
  vehicle_reg : String
  vehicle_type : Option String
  lot_name : String
  spot_number : Option Nat
  start_time : ℚ
  end_time : ℚ
  price_cents : Int
  status : String
deriving DecidableEq

/-- `QuoteIn` request schema. -/
structure QuoteIn where
  vehicle_reg : String
  vehicle_type : Option String := none
  start_time : Option ℚ := none
  end_time : Option ℚ := none
  duration_hours : Option ℚ := none
  duration_minutes : Option Int := none
deriving DecidableEq

/-- `ReservationCreate` request schema.  Note: unlike `QuoteIn` it has no
`duration_minutes` field (pydantic ignores unknown fields in the payload). -/
structure ReservationCreate where
  customer_name : String
  email : Option String := none
  vehicle_reg : String
  vehicle_type : Option String := none
  start_time : Option ℚ := none
  end_time : Option ℚ := none
  duration_hours : Option ℚ := none
deriving DecidableEq

/-- `HTTPException(status_code=..., detail=...)`. -/
structure HTTPError where
  status : Nat
  detail : String
deriving DecidableEq

/-- Python `round(x, 2)` (banker rounding at ties; the arguments this system
passes, `mins/60`, have denominator 1 or 3 after scaling by 100, so a tie
never occurs and half-up rounding is exact here). -/
def roundTo2 (q : ℚ) : ℚ := ((round (q * 100) : ℤ) : ℚ) / 100

/-- `QuoteOut` response schema. -/
structure QuoteOut where
  lot_name : String
  vehicle_reg : String
  vehicle_type : Option String
  start_time : ℚ
  end_time : ℚ
  duration_minutes : Int
  duration_hours : ℚ
  price_cents : Int
  available : Bool
  suggested_spot : Option Nat
  suggested_label : Option String
deriving DecidableEq

/-- `ReservationOut` response schema (`id` elided, confirmation code modelled
separately on the calendar datetime type). -/
structure ReservationOut where
  lot_name : String
  spot_number : Nat
  spot_label : String
  vehicle_type : Option String
  start_time : ℚ
  end_time : ℚ
  price_cents : Int
deriving DecidableEq

/-! ## Pricing (`_overlaps`, `_rate_for_vehicle_type`, `_compute_price_cents`) -/

/-- `_overlaps`: half-open interval overlap test,
`not (a_end <= b_start or b_end <= a_start)`. -/
def _overlaps (aStart aEnd bStart bEnd : ℚ) : Bool :=
  !(aEnd ≤ bStart || bEnd ≤ aStart)

/-- `_rate_for_vehicle_type`: strip + lowercase the class name, then select the
per-class rate, falling back to the base rate. -/
def _rate_for_vehicle_type (vehicle_type : Option String) : Int :=
  let vt := trimList (toLowerList (vehicle_type.getD "").toList)
  if vt = "car".toList then RATE_CENTS_PER_HOUR_CAR
  else if vt = "motorcycle".toList then RATE_CENTS_PER_HOUR_MOTORCYCLE
  else if vt = "truck".toList then RATE_CENTS_PER_HOUR_TRUCK
  else RATE_CENTS_PER_HOUR

/-- `_compute_price_cents`:
`total_minutes = max(0, int((end - start).total_seconds() // 60))`;
`billable_minutes = max(total_minutes, MIN_CHARGE_MINUTES)`;
`hours = math.ceil(billable_minutes / 60)`; `hours * rate`. -/
def _compute_price_cents (start endT : ℚ) (vehicle_type : Option String) : Int :=
  let total_minutes : Int := max 0 ⌊(endT - start) / 60⌋
  let billable_minutes : Int := max total_minutes MIN_CHARGE_MINUTES
  let hours : Int := ⌈(billable_minutes : ℚ) / 60⌉
  hours * _rate_for_vehicle_type vehicle_type

/-! ## Spot allocation (`_assign_spot`) -/

/-- The rows the `_assign_spot` SELECT returns: `(spot_number, start, end)` of
every confirmed reservation of the lot that has a spot number. -/
def takenRows (rows : List Reservation) (lot : String) : List (Nat × ℚ × ℚ) :=
  rows.filterMap (fun r =>
    if r.lot_name = lot && r.status = "confirmed" && r.spot_number.isSome then
      some (r.spot_number.getD 0, r.start_time, r.end_time)
    else none)

/-- `_assign_spot`: scan spots `1..LOT_CAPACITY` in ascending order and return
the first spot none of whose recorded intervals overlaps the candidate. -/
def _assign_spot (rows : List Reservation) (lot : String) (start endT : ℚ) : Option Nat :=
  let taken := takenRows rows lot
  ((List.range LOT_CAPACITY).map (fun i => i + 1)).find? (fun spot =>
    ((taken.filter (fun t => t.1 = spot)).all (fun t => !_overlaps start endT t.2.1 t.2.2)))

/-- Claim-side view: the recorded intervals of one spot (confirmed rows of the
lot assigned exactly this spot number). -/
def spotIntervals (rows : List Reservation) (lot : String) (spot : Nat) : List (ℚ × ℚ) :=
  rows.filterMap (fun r =>
    if r.lot_name = lot && r.status = "confirmed" && r.spot_number = some spot then
      some (r.start_time, r.end_time)
    else none)

/-- Claim-side view: spot `spot` is free for the candidate interval. -/
def spotFreeFor (rows : List Reservation) (lot : String) (start endT : ℚ) (spot : Nat) : Bool :=
  (spotIntervals rows lot spot).all (fun p => !_overlaps start endT p.1 p.2)

/-! ## Validation helpers shared by `quote` and `create_reservation` -/

/-- The vehicle-type rejection test
`data.vehicle_type and data.vehicle_type.lower() not in {"car","motorcycle","truck"}`.
Python truthiness: an absent or empty string is not checked. -/
def vehicleTypeBad (vt : Option String) : Bool :=
  match vt with
  | none => false
  | some s =>
    !(s = "") &&
      !(toLowerList s.toList = "car".toList || toLowerList s.toList = "motorcycle".toList ||
        toLowerList s.toList = "truck".toList)

/-- Python `data.vehicle_type or None`: an empty string is stored as `None`. -/
def pyOrNone (vt : Option String) : Option String :=
  match vt with
  | none => none
  | some s => if s = "" then none else some s

/-- Characters allowed by `[^\s@]` in the email regex. -/
def emailAtomChar (c : Char) : Bool := !isSpaceChar c && c ≠ '@'

/-- The domain part `[^\s@]+\.[^\s@]+` demands a dot that is neither the first
nor the last character (both neighbours being non-space non-@ by the outer
check). -/
def domainHasInnerDot (l : List Char) : Bool :=
  match l with
  | [] => false
  | _ :: t => t.dropLast.contains '.'

/-- The language of `re.match(r"^[^\s@]+@[^\s@]+\.[^\s@]+$", s)` without the
trailing-newline allowance: exactly one `@`, non-empty space-free sides, and an
inner dot in the domain. -/
def fullEmailShape (cs : List Char) : Bool :=
  match splitOnChar '@' cs with
  | [locl, domain] =>
    !locl.isEmpty && locl.all emailAtomChar && !domain.isEmpty && domain.all emailAtomChar &&
      domainHasInnerDot domain
  | _ => false

/-- `re.match(r"^[^\s@]+@[^\s@]+\.[^\s@]+$", s)`: the regex `$` also matches
just before one final newline. -/
def emailRegexMatch (cs : List Char) : Bool :=
  fullEmailShape cs || (cs.getLast? = some '\n' && fullEmailShape cs.dropLast)

/-- `if data.email and not re.match(...)`: an absent or empty email is not
checked; otherwise the regex must match. -/
def emailBad (em : Option String) : Bool :=
  match em with
  | none => false
  | some s => !(s = "") && !emailRegexMatch s.toList

/-- `_spot_label`: zone letter from the lot name (first character after the
last hyphen, else the lot name head), prepended to the spot number.  Python
truthiness makes `spot_number` 0 produce `None`. -/
def _spot_label (lot_name : String) (spot_number : Option Nat) : Option String :=
  match spot_number with
  | none => none
  | some 0 => none
  | some k =>
    let zoneFromTail : Option Char :=
      if lot_name.toList.contains '-' then
        match trimList ((splitOnChar '-' lot_name.toList).getLastD []) with
        | [] => none
        | c :: _ => some c.toUpper
      else none
    let zone : Option Char :=
      match zoneFromTail with
      | some z => some z
      | none =>
        match lot_name.toList with
        | [] => none
        | c :: _ => some c.toUpper
    match zone with
    | some z => some (String.mk (z :: (toString k).toList))
    | none => some (toString k)

/-! ## `quote` (POST /api/quote) -/

/-- End-time resolution of `quote`:
explicit `end_time` > `duration_hours` > `duration_minutes`, else no end. -/
def resolveEnd (d : QuoteIn) (start : ℚ) : Option ℚ :=
  match d.end_time with
  | some e => some e
  | none =>
    match d.duration_hours with
    | some h => some (start + h * 3600)
    | none =>
      match d.duration_minutes with
      | some m => some (start + (m : ℚ) * 60)
      | none => none

/-- The validation prefix of `quote` as a pure function of the request and the
clock: it mirrors the `HTTPException` cascade that runs before the database
session is opened. -/
def quoteValidate (d : QuoteIn) (now : ℚ) : Option HTTPError :=
  if d.vehicle_reg = "" then some ⟨400, "vehicle_reg is required"⟩
  else if vehicleTypeBad d.vehicle_type then
    some ⟨400, "vehicle_type must be one of: car, motorcycle, truck"⟩
  else
    let start := d.start_time.getD now
    match resolveEnd d start with
    | none => some ⟨400, "Provide end_time, duration_hours, or duration_minutes"⟩
    | some e => if e ≤ start then some ⟨400, "end_time must be after start_time"⟩ else none

/-- `quote`: validation, then price and a non-persisting allocator probe.
`start_time`/`end_time` arrive already parsed (the ISO-8601 parse failures of
the source are a further 400 path not modelled here — the claims quantify over
already-resolved instants). -/
def quote (d : QuoteIn) (now : ℚ) (store : List Reservation) : Except HTTPError QuoteOut :=
  if d.vehicle_reg = "" then .error ⟨400, "vehicle_reg is required"⟩
  else if vehicleTypeBad d.vehicle_type then
    .error ⟨400, "vehicle_type must be one of: car, motorcycle, truck"⟩
  else
    let start := d.start_time.getD now
    match resolveEnd d start with
    | none => .error ⟨400, "Provide end_time, duration_hours, or duration_minutes"⟩
    | some e =>
      if e ≤ start then .error ⟨400, "end_time must be after start_time"⟩
      else
        let mins : Int := ⌊(e - start) / 60⌋
        let price := _compute_price_cents start e d.vehicle_type
        let spot := _assign_spot store LOT_NAME start e
        .ok
          { lot_name := LOT_NAME
            vehicle_reg := d.vehicle_reg
            vehicle_type := pyOrNone d.vehicle_type
            start_time := start
            end_time := e
            duration_minutes := mins
            duration_hours := roundTo2 ((mins : ℚ) / 60)
            price_cents := price
            available := spot.isSome
            suggested_spot := spot
            suggested_label := _spot_label LOT_NAME spot }

/-! ## `create_reservation` (POST /api/reservations) -/

/-- The resolved end instant of `create_reservation`:
`end = data.end_time or (start + timedelta(hours=float(data.duration_hours or 0)))`. -/
def reserveResolvedEnd (d : ReservationCreate) (now : ℚ) : ℚ :=
  match d.end_time with
  | some e => e
  | none => d.start_time.getD now + d.duration_hours.getD 0 * 3600

/-- The validation cascade of `create_reservation` as a pure function of the
request and the clock (everything that runs before the database session is
opened). -/
def reserveValidate (d : ReservationCreate) (now : ℚ) : Option HTTPError :=
  if d.vehicle_reg = "" || d.customer_name = "" then
    some ⟨400, "customer_name and vehicle_reg are required"⟩
  else if d.end_time = none && d.duration_hours = none then
    some ⟨400, "Provide end_time or duration_hours"⟩
  else if reserveResolvedEnd d now ≤ d.start_time.getD now then
    some ⟨400, "end_time must be after start_time"⟩
  else if vehicleTypeBad d.vehicle_type then
    some ⟨400, "vehicle_type must be one of: car, motorcycle, truck"⟩
  else if emailBad d.email then some ⟨400, "invalid email format"⟩
  else none

/-- `create_reservation`: validation, allocation, then an insert of the new
confirmed row; the function returns the HTTP outcome together with the store
after the call (unchanged on every failure path). -/
def create_reservation (d : ReservationCreate) (now : ℚ) (store : List Reservation) :
    Except HTTPError ReservationOut × List Reservation :=
  if d.vehicle_reg = "" || d.customer_name = "" then
    (.error ⟨400, "customer_name and vehicle_reg are required"⟩, store)
  else
    let start := d.start_time.getD now
    if d.end_time = none && d.duration_hours = none then
      (.error ⟨400, "Provide end_time or duration_hours"⟩, store)
    else
      let e := reserveResolvedEnd d now
      if e ≤ start then (.error ⟨400, "end_time must be after start_time"⟩, store)
      else if vehicleTypeBad d.vehicle_type then
        (.error ⟨400, "vehicle_type must be one of: car, motorcycle, truck"⟩, store)
      else if emailBad d.email then (.error ⟨400, "invalid email format"⟩, store)
      else
        let price := _compute_price_cents start e d.vehicle_type
        match _assign_spot store LOT_NAME start e with
        | none => (.error ⟨409, "No spots available for the requested time range"⟩, store)
        | some spot =>
          let row : Reservation :=
            { customer_name := d.customer_name
              email := d.email
              vehicle_reg := d.vehicle_reg
              vehicle_type := pyOrNone d.vehicle_type
              lot_name := LOT_NAME
              spot_number := some spot
              start_time := start
              end_time := e
              price_cents := price
              status := "confirmed" }
          (.ok
            { lot_name := LOT_NAME
              spot_number := spot
              spot_label := (_spot_label LOT_NAME (some spot)).getD (toString spot)
              vehicle_type := pyOrNone d.vehicle_type
              start_time := start
              end_time := e
              price_cents := price }, store ++ [row])

/-! ## Concurrency model for two interleaved `create_reservation` calls

Inside the `with Session(engine)` block the code performs two separate
database operations: the SELECT inside `_assign_spot` and the
INSERT/COMMIT of the new row.  No lock, unique constraint or serializable
transaction spans the two (the default SQLite/SQLAlchemy setup runs the
SELECT outside any write lock), so a concurrent schedule can run both SELECTs
before either INSERT.  `interleavedReserve2` is that schedule for two reserve
calls that both passed validation. -/

/-- The row the insert step commits for a validated reserve call. -/
def reserveRow (name reg : String) (spot : Nat) (s e : ℚ) : Reservation :=
  { customer_name := name
    email := none
    vehicle_reg := reg
    vehicle_type := none
    lot_name := LOT_NAME
    spot_number := some spot
    start_time := s
    end_time := e
    price_cents := _compute_price_cents s e none
    status := "confirmed" }

/-- Both allocation checks read the initial store, then both inserts commit:
the check-then-insert interleaving the code does not exclude. -/
def interleavedReserve2 (store : List Reservation) (sA eA sB eB : ℚ) :
    List Reservation × Option Nat × Option Nat :=
  let spotA := _assign_spot store LOT_NAME sA eA
  let spotB := _assign_spot store LOT_NAME sB eB
  let store1 :=
    match spotA with
    | some k => store ++ [reserveRow "Alice" "KA01AB1234" k sA eA]
    | none => store
  let store2 :=
    match spotB with
    | some k => store1 ++ [reserveRow "Bob" "KA02CD5678" k sB eB]
    | none => store1
  (store2, spotA, spotB)

/-- Two confirmed rows of the same lot double-book when they carry the same
spot number and overlapping intervals. -/
def overlapsPair (r1 r2 : Reservation) : Bool :=
  r1.lot_name = r2.lot_name && r1.status = "confirmed" && r2.status = "confirmed" &&
    r1.spot_number.isSome && r1.spot_number = r2.spot_number &&
    _overlaps r1.start_time r1.end_time r2.start_time r2.end_time

/-- The no-double-booking store invariant the spec demands. -/
def noDoubleBookingB : List Reservation → Bool
  | [] => true
  | r :: t => t.all (fun x => !overlapsPair r x) && noDoubleBookingB t

/-! ## Calendar datetimes (naive Python `datetime`, second granularity) -/

/-- A naive `datetime` down to seconds (microseconds elided: `parse_arrival`
strips them from its output and no claim depends on them). -/
structure PyDateTime where
  year : Nat
  month : Nat
  day : Nat
  hour : Nat := 0
  minute : Nat := 0
  second : Nat := 0
deriving DecidableEq

/-- Gregorian leap year. -/
def isLeapYear (y : Nat) : Bool := y % 4 = 0 && (y % 100 ≠ 0 || y % 400 = 0)

/-- Days in a month of the proleptic Gregorian calendar. -/
def daysInMonth (y m : Nat) : Nat :=
  if m = 2 then (if isLeapYear y then 29 else 28)
  else if m = 4 || m = 6 || m = 9 || m = 11 then 30
  else 31

/-- Days of year `y` before month `m` (months are 1-based). -/
def daysBeforeMonth (y : Nat) : Nat → Nat
  | 0 => 0
  | m + 1 => if m = 0 then 0 else daysBeforeMonth y m + daysInMonth y m

/-- Leap days in years `1..y-1`. -/
def leapsBefore (y : Nat) : Nat := (y - 1) / 4 - (y - 1) / 100 + (y - 1) / 400

/-- Days since 0001-01-01 (the linearisation `datetime` comparison and
`timedelta` arithmetic follow). -/
def toDays (dt : PyDateTime) : Nat :=
  365 * (dt.year - 1) + leapsBefore dt.year + daysBeforeMonth dt.year dt.month + (dt.day - 1)

/-- Seconds since 0001-01-01T00:00:00; `datetime` comparison and subtraction
are comparison and subtraction of this number. -/
def toSec (dt : PyDateTime) : Nat :=
  ((toDays dt * 24 + dt.hour) * 60 + dt.minute) * 60 + dt.second

/-- `dt + timedelta(days=1)` on the civil calendar. -/
def addOneDay (dt : PyDateTime) : PyDateTime :=
  if dt.day < daysInMonth dt.year dt.month then { dt with day := dt.day + 1 }
  else if dt.month < 12 then { dt with month := dt.month + 1, day := 1 }
  else { dt with year := dt.year + 1, month := 1, day := 1 }

/-- Two zero-padded decimal digits, as `strftime` prints every `%m %d %H %M`
field of a valid datetime (all such fields are below 100). -/
def pad2 (n : Nat) : List Char := [Nat.digitChar (n / 10 % 10), Nat.digitChar (n % 10)]

/-- Four zero-padded decimal digits for `%Y`. -/
def pad4 (n : Nat) : List Char :=
  [Nat.digitChar (n / 1000 % 10), Nat.digitChar (n / 100 % 10),
   Nat.digitChar (n / 10 % 10), Nat.digitChar (n % 10)]

/-- `when.strftime("%m%d%H%M")`. -/
def strftimeMMDDHHMM (dt : PyDateTime) : List Char :=
  pad2 dt.month ++ pad2 dt.day ++ pad2 dt.hour ++ pad2 dt.minute

/-- `now.strftime("%Y-%m-%d")`. -/
def fmtDateYMD (dt : PyDateTime) : List Char :=
  pad4 dt.year ++ '-' :: pad2 dt.month ++ '-' :: pad2 dt.day

/-- The normalisation `vehicle_reg.replace(' ', '').upper()` applied to the
vehicle id inside the confirmation code. -/
def pyUpperNoSpaces (reg : List Char) : List Char :=
  (reg.filter (fun c => c ≠ ' ')).map Char.toUpper

/-- `_generate_code`: the f-string
`f"RP-{vehicle_reg.replace(' ', '').upper()}-{when.strftime('%m%d%H%M')}"`. -/
def _generate_code (vehicle_reg : List Char) (when : PyDateTime) : List Char :=
  "RP-".toList ++ pyUpperNoSpaces vehicle_reg ++ '-' :: strftimeMMDDHHMM when

/-! ## Arrival-time extraction (`parse_arrival`, POST /api/parse-arrival) -/

/-- Does the token spell `am`/`pm` (case-insensitively)?  `some true` = pm. -/
def parseAmPm (l : List Char) : Option Bool :=
  let low := toLowerList l
  if low = "am".toList then some false
  else if low = "pm".toList then some true
  else none

/-- 12-hour clock to 24-hour clock. -/
def hourWithAmPm (h : Nat) (pm : Bool) : Option Nat :=
  if 1 ≤ h && h ≤ 12 then
    some (if pm then (if h = 12 then 12 else h + 12) else (if h = 12 then 0 else h))
  else none

/-- A `YYYY-MM-DD` date token with calendar-valid month and day (an invalid
date makes the datetime constructor raise inside dateutil). -/
def parseDateTok (l : List Char) : Option (Nat × Nat × Nat) :=
  match splitOnChar '-' l with
  | [ys, ms, ds] =>
    match parseNatDigits ys, parseNatDigits ms, parseNatDigits ds with
    | some y, some m, some d =>
      if ys.length = 4 && 1 ≤ m && m ≤ 12 && 1 ≤ d && d ≤ daysInMonth y m then some (y, m, d)
      else none
    | _, _, _ => none
  | _ => none

/-- Whitespace tokenisation. -/
def splitSpaces (l : List Char) : List (List Char) := (splitOnChar ' ' l).filter (· ≠ [])

/-- Modelled from the spec: the "general date/time parse with now as the
default-fill context" is `dateutil.parser.parse(text, default=now)`, a
third-party dependency whose code is not in this repository.  It is modelled
here restricted to the token shapes this pipeline produces: an optional
`YYYY-MM-DD` date and an optional `H am/pm` time; every field the text does
not determine is filled from the default, exactly dateutil's default-fill
contract. -/
def dateutilParse (dflt : PyDateTime) (text : List Char) : Option PyDateTime :=
  match splitSpaces text with
  | [d] =>
    match parseDateTok d with
    | some (y, m, dd) =>
      some { year := y, month := m, day := dd,
             hour := dflt.hour, minute := dflt.minute, second := dflt.second }
    | none => none
  | [d, h, ap] =>
    match parseDateTok d, parseNatDigits h, parseAmPm ap with
    | some (y, m, dd), some hr, some pm =>
      match hourWithAmPm hr pm with
      | some hh =>
        some { year := y, month := m, day := dd,
               hour := hh, minute := dflt.minute, second := dflt.second }
      | none => none
    | _, _, _ => none
  | [h, ap] =>
    match parseNatDigits h, parseAmPm ap with
    | some hr, some pm =>
      match hourWithAmPm hr pm with
      | some hh => some { dflt with hour := hh }
      | none => none
    | _, _ => none
  | _ => none

/-- The text preprocessing of `parse_arrival`: strip, replace a lowercased
`today`/`tomorrow` with the corresponding calendar date of `now`, then drop
the filler `" at "`. -/
def preprocessArrival (now : PyDateTime) (utterance : List Char) : List Char :=
  let text0 := trimList utterance
  let lowered := toLowerList text0
  let text1 :=
    if containsSub "today".toList lowered then
      replaceAll "today".toList (fmtDateYMD now) lowered
    else if containsSub "tomorrow".toList lowered then
      replaceAll "tomorrow".toList (fmtDateYMD (addOneDay now)) lowered
    else text0
  replaceAll " at ".toList " ".toList text1

/-- `parse_arrival`: preprocess, parse with `now` as default fill, and if the
result lies more than 5 minutes in the past relative to `now`, add one day. -/
def parse_arrival (now : PyDateTime) (utterance : List Char) : Option PyDateTime :=
  if trimList utterance = [] then none
  else
    match dateutilParse now (preprocessArrival now utterance) with
    | none => none
    | some dt => some (if toSec dt + 300 < toSec now then addOneDay dt else dt)

/-! ## Vehicle extraction (`extract_vehicle_info` in `app/cartesia_agent.py`)

The registration regex `\b[A-Z]{2}\d{2}[A-Z]{2}\d{4}\b|\b[A-Z]{3}-?\d{4}\b`
is searched left to right over the uppercased utterance; at each position the
first alternative is tried before the second, and `-?` is tried greedily,
matching Python `re.search` backtracking. -/

/-- Regex word character (`\w`, ASCII range: the inputs here are uppercased
ASCII). -/
def isWordChar (c : Char) : Bool := c.isAlpha || c.isDigit || c = '_'

/-- `[A-Z]`. -/
def isUpperAZ (c : Char) : Bool := 'A' ≤ c && c ≤ 'Z'

/-- Take exactly `n` characters satisfying `p`, returning them and the rest. -/
def takeClass (p : Char → Bool) : Nat → List Char → Option (List Char × List Char)
  | 0, l => some ([], l)
  | _ + 1, [] => none
  | n + 1, c :: t =>
    if p c then (takeClass p n t).map (fun a => (c :: a.1, a.2)) else none

/-- `\b` after the match: end of input or a non-word character. -/
def boundaryAfter : List Char → Bool
  | [] => true
  | c :: _ => !isWordChar c

/-- First alternative `[A-Z]{2}\d{2}[A-Z]{2}\d{4}\b` at the current position. -/
def tryAlt1 (l : List Char) : Option (List Char) :=
  match takeClass isUpperAZ 2 l with
  | none => none
  | some (a, r1) =>
    match takeClass Char.isDigit 2 r1 with
    | none => none
    | some (b, r2) =>
      match takeClass isUpperAZ 2 r2 with
      | none => none
      | some (c, r3) =>
        match takeClass Char.isDigit 4 r3 with
        | none => none
        | some (d, r4) => if boundaryAfter r4 then some (a ++ b ++ c ++ d) else none

/-- Second alternative `[A-Z]{3}-?\d{4}\b` at the current position (the dashed
branch is preferred, as the greedy `-?` is). -/
def tryAlt2 (l : List Char) : Option (List Char) :=
  match takeClass isUpperAZ 3 l with
  | none => none
  | some (a, r1) =>
    let dashed : Option (List Char) :=
      match r1 with
      | '-' :: r2 =>
        match takeClass Char.isDigit 4 r2 with
        | some (d, r3) => if boundaryAfter r3 then some (a ++ '-' :: d) else none
        | none => none
      | _ => none
    match dashed with
    | some m => some m
    | none =>
      match takeClass Char.isDigit 4 r1 with
      | some (d, r3) => if boundaryAfter r3 then some (a ++ d) else none
      | none => none

/-- `re.search` over the uppercased text: leftmost position wins, and at one
position the first alternative wins; `prev` carries the previous character for
the leading `\b` test. -/
def searchVehicleReg (prev : Option Char) : List Char → Option (List Char)
  | [] => none
  | c :: t =>
    let bOk := match prev with | none => true | some p => !isWordChar p
    let here : Option (List Char) :=
      if bOk then
        match tryAlt1 (c :: t) with
        | some m => some m
        | none => tryAlt2 (c :: t)
      else none
    match here with
    | some m => some m
    | none => searchVehicleReg (some c) t

/-- `extract_vehicle_info`: keyword class detection on the lowercased text and
the registration regex search on the uppercased text. -/
def extract_vehicle_info (text : List Char) : Option (List Char) × Option (List Char) :=
  let lowered := toLowerList text
  let vehicle_type : Option (List Char) :=
    if containsAny ["motorcycle".toList, "bike".toList, "motorbike".toList] lowered then
      some "motorcycle".toList
    else if containsAny ["truck".toList, "van".toList] lowered then some "truck".toList
    else if containsAny ["car".toList, "sedan".toList, "suv".toList] lowered then
      some "car".toList
    else none
  (searchVehicleReg none (toUpperList text), vehicle_type)

/-! ## Dialogue state machine (`handle_conversation`)

The downstream HTTP calls (`/api/parse-arrival`, `/api/parse-duration`,
`/api/quote`, `/api/parse-email`, `/api/reservations`) are modelled by a
`DialogEnv` oracle holding this turn's outcome of each call: `none` is the
exception path (`raise_for_status` or transport failure), `some` the decoded
JSON payload (restricted to the fields the agent reads).  The spoken messages
are abstracted to tags naming the source f-strings. -/

/-- `ConversationState` (the source also declares the unused
`PROVIDE_QUOTE`). -/
inductive ConversationState where
  | greeting
  | collect_name
  | collect_vehicle
  | collect_arrival
  | collect_duration
  | collect_email
  | provide_quote
  | confirm_reservation
  | completed
deriving DecidableEq

/-- The fields of the `/api/quote` payload the agent reads. -/
structure DialogQuote where
  price_cents : Int
  lot_name : List Char
  suggested_label : Option (List Char)
deriving DecidableEq

/-- The fields of the `/api/reservations` payload the agent reads. -/
structure DialogReservation where
  confirmation_code : List Char
  spot_label : List Char
  lot_name : List Char
deriving DecidableEq

/-- `AgentContext`: the per-call session. -/
structure AgentContext where
  state : ConversationState := .greeting
  customer_name : Option (List Char) := none
  vehicle_reg : Option (List Char) := none
  vehicle_type : Option (List Char) := none
  arrival_time : Option (List Char) := none
  duration_hours : Option ℚ := none
  email : Option (List Char) := none
  quote : Option DialogQuote := none
  reservation : Option DialogReservation := none
deriving DecidableEq

/-- This turn's downstream-call outcomes (`none` = the call raised). -/
structure DialogEnv where
  parseArrival : Option (List Char) := none
  parseDuration : Option ℚ := none
  quoteRes : Option DialogQuote := none
  parseEmail : Option (List Char) := none
  reserveRes : Option DialogReservation := none
deriving DecidableEq

/-- Tags for the response messages of `handle_conversation`, one per source
f-string. -/
inductive MessageTag where
  | askName
  | askVehicle
  | retryName
  | askArrival
  | retryVehicle
  | askDuration
  | retryArrival
  | askEmail
  | retryDuration
  | retryEmail
  | quoteMissingError
  | confirmPrompt
  | confirmedFinal
  | reserveError
  | cancelledFinal
  | fallback
deriving DecidableEq

/-- A `CartesiaWebhookResponse`, reduced to the message tag and the `end_call`
flag. -/
structure TurnResponse where
  message : MessageTag
  end_call : Bool := false
deriving DecidableEq

/-- The skip vocabulary of COLLECT_EMAIL. -/
def skipWords : List (List Char) :=
  ["skip".toList, "no email".toList, "no thanks".toList, "none".toList]

/-- The affirmative vocabulary of CONFIRM (substring containment, as in the
source). -/
def affirmativeWords : List (List Char) :=
  ["yes".toList, "confirm".toList, "correct".toList, "proceed".toList, "book".toList]

/-- Is the lowercased utterance affirmative for CONFIRM? -/
def isAffirmative (lowered : List Char) : Bool := containsAny affirmativeWords lowered

/-- The tail of the COLLECT_EMAIL branch: advance to CONFIRM_RESERVATION (the
state is set and saved before the quote is inspected, as in the source), then
either abort the call when no quote is stored or emit the summary prompt. -/
def confirmAdvance (ctx : AgentContext) : AgentContext × TurnResponse :=
  let ctx2 := { ctx with state := .confirm_reservation }
  match ctx2.quote with
  | none => (ctx2, ⟨.quoteMissingError, true⟩)
  | some _ => (ctx2, ⟨.confirmPrompt, false⟩)

/-- `handle_conversation`: one dialogue turn.  Mutations of the session object
and `save_session` become the returned context. -/
def handle_conversation (env : DialogEnv) (msg : List Char) (ctx : AgentContext) :
    AgentContext × TurnResponse :=
  match ctx.state with
  | .greeting => ({ ctx with state := .collect_name }, ⟨.askName, false⟩)
  | .collect_name =>
    if msg ≠ [] && (trimList msg).length > 2 then
      ({ ctx with customer_name := some (trimList msg), state := .collect_vehicle },
        ⟨.askVehicle, false⟩)
    else (ctx, ⟨.retryName, false⟩)
  | .collect_vehicle =>
    match extract_vehicle_info msg with
    | (some reg, vtype) =>
      ({ ctx with vehicle_reg := some reg, vehicle_type := some (vtype.getD "car".toList),
                  state := .collect_arrival }, ⟨.askArrival, false⟩)
    | (none, _) => (ctx, ⟨.retryVehicle, false⟩)
  | .collect_arrival =>
    match env.parseArrival with
    | some t =>
      ({ ctx with arrival_time := some t, state := .collect_duration }, ⟨.askDuration, false⟩)
    | none => (ctx, ⟨.retryArrival, false⟩)
  | .collect_duration =>
    match env.parseDuration with
    | none => (ctx, ⟨.retryDuration, false⟩)
    | some dh =>
      match env.quoteRes with
      | none => ({ ctx with duration_hours := some dh }, ⟨.retryDuration, false⟩)
      | some q =>
        ({ ctx with duration_hours := some dh, quote := some q, state := .collect_email },
          ⟨.askEmail, false⟩)
  | .collect_email =>
    if containsAny skipWords (toLowerList msg) then confirmAdvance { ctx with email := none }
    else
      match env.parseEmail with
      | none => (ctx, ⟨.retryEmail, false⟩)
      | some em => confirmAdvance { ctx with email := some em }
  | .confirm_reservation =>
    if isAffirmative (toLowerList msg) then
      match env.reserveRes with
      | some r =>
        ({ ctx with reservation := some r, state := .completed }, ⟨.confirmedFinal, true⟩)
      | none => (ctx, ⟨.reserveError, true⟩)
    else ({ ctx with state := .completed }, ⟨.cancelledFinal, true⟩)
  | .provide_quote => (ctx, ⟨.fallback, false⟩)
  | .completed => (ctx, ⟨.fallback, false⟩)

/-- The session `get_session` creates for a fresh call id. -/
def initialContext : AgentContext := {}

/-- Sessions reachable from a fresh call by dialogue turns (any utterance, any
downstream outcomes). -/
inductive Reachable : AgentContext → Prop where
  | init : Reachable initialContext
  | step (env : DialogEnv) (msg : List Char) (ctx : AgentContext) :
      Reachable ctx → Reachable (handle_conversation env msg ctx).1

/-! ## Concrete instances used by witnesses -/

/-- A one-row store: spot 1 of the configured lot is booked for `[0, 100)`. -/
def wRowsC1 : List Reservation :=
  [{ customer_name := "n"
     email := none
     vehicle_reg := "V"
     vehicle_type := none
     lot_name := "RapidPark-A"
     spot_number := some 1
     start_time := 0
     end_time := 100
     price_cents := 400
     status := "confirmed" }]

/-- A store in which every one of the 50 spots is booked for `[0, 7200)`. -/
def wStoreFull : List Reservation :=
  (List.range 50).map (fun i =>
    { customer_name := "n"
      email := none
      vehicle_reg := "V"
      vehicle_type := none
      lot_name := "RapidPark-A"
      spot_number := some (i + 1)
      start_time := 0
      end_time := 7200
      price_cents := 800
      status := "confirmed" })

/-- A well-formed reserve request for `[0, 3600)`. -/
def wReserveIn : ReservationCreate :=
  { customer_name := "Alice", vehicle_reg := "KA01AB1234", end_time := some 3600 }

/-- A quote request whose vehicle class is supplied as the empty string. -/
def cQuoteEmptyVt : QuoteIn :=
  { vehicle_reg := "KA01AB1234", vehicle_type := some "", start_time := some 0,
    end_time := some 3600 }

/-- A quote request with no end time and no duration. -/
def wQuoteNoEnd : QuoteIn := { vehicle_reg := "KA01AB1234" }

/-- The clock instant of spec Scenario 5: 2024-01-01T10:00. -/
def wNow2024 : PyDateTime := { year := 2024, month := 1, day := 1, hour := 10 }

/-- A downstream-call environment in which arrival, duration and quote calls
all succeed. -/
def wEnvQuote : DialogEnv :=
  { parseArrival := some "2024-01-01T15:00:00".toList
    parseDuration := some 2
    quoteRes := some ⟨800, "RapidPark-A".toList, some "A1".toList⟩ }

/-- A six-turn happy-path dialogue: greeting, name, vehicle, arrival,
duration+quote, email skip — ending in the CONFIRM state. -/
def wCtx1 : AgentContext := (handle_conversation {} "hi".toList initialContext).1

def wCtx2 : AgentContext := (handle_conversation {} "John Doe".toList wCtx1).1

def wCtx3 : AgentContext := (handle_conversation {} "ABC-1234, car".toList wCtx2).1

def wCtx4 : AgentContext := (handle_conversation wEnvQuote "today at 3 pm".toList wCtx3).1

def wCtx5 : AgentContext := (handle_conversation wEnvQuote "2 hours".toList wCtx4).1

def wCtx6 : AgentContext := (handle_conversation {} "skip".toList wCtx5).1

/-- A session sitting in the CONFIRM state. -/
def wCtxConfirm : AgentContext := { state := .confirm_reservation }

/-! # Theorems -/

/-! ## C3: pricing -/

/-- The hourly rate is one of the four configured positive constants. -/
lemma rate_pos (vt : Option String) : 0 < _rate_for_vehicle_type vt := by
  unfold _rate_for_vehicle_type
  dsimp only
  split
  · simp [RATE_CENTS_PER_HOUR_CAR, RATE_CENTS_PER_HOUR]
  · split
    · simp [RATE_CENTS_PER_HOUR_MOTORCYCLE]
    · split
      · simp [RATE_CENTS_PER_HOUR_TRUCK]
      · simp [RATE_CENTS_PER_HOUR]

/-- The ceiling of `b / 60` hours is positive once `b` is at least an hour. -/
lemma ceil_billable_pos (b : Int) (hb : 60 ≤ b) : 0 < ⌈(b : ℚ) / 60⌉ := by
  rw [Int.lt_ceil]
  have hbq : (60 : ℚ) ≤ (b : ℚ) := by exact_mod_cast hb
  push_cast
  apply div_pos <;> linarith

/-- C3.  `price(start, end, class)` equals
`ceil(max(max(0, floor((end-start)/60)), MIN_CHARGE_MINUTES)/60) * rate(class)`,
the rate constants are positive, the result is a non-negative integer, the
function is total, and for `end <= start` it charges exactly one hour at the
class rate. -/
theorem compute_price_cents_spec (s e : ℚ) (vt : Option String) :
    _compute_price_cents s e vt =
        ⌈((max (max 0 ⌊(e - s) / 60⌋) MIN_CHARGE_MINUTES : Int) : ℚ) / 60⌉ *
          _rate_for_vehicle_type vt
      ∧ 0 ≤ _compute_price_cents s e vt
      ∧ 0 < _rate_for_vehicle_type vt
      ∧ (e ≤ s → _compute_price_cents s e vt = _rate_for_vehicle_type vt) := by
  have hrate := rate_pos vt
  have hmin : (MIN_CHARGE_MINUTES : Int) = 60 := rfl
  have hb : (60 : Int) ≤ max (max 0 ⌊(e - s) / 60⌋) MIN_CHARGE_MINUTES := by
    rw [hmin]; exact le_max_right _ _
  have hceil : 0 < ⌈((max (max 0 ⌊(e - s) / 60⌋) MIN_CHARGE_MINUTES : Int) : ℚ) / 60⌉ :=
    ceil_billable_pos _ hb
  refine ⟨rfl, ?_, hrate, ?_⟩
  · exact mul_nonneg (le_of_lt hceil) (le_of_lt hrate)
  · intro hle
    have hfloor : ⌊(e - s) / 60⌋ ≤ 0 := by
      apply Int.floor_nonpos
      apply div_nonpos_of_nonpos_of_nonneg
      · linarith
      · norm_num
    have hmax : max 0 ⌊(e - s) / 60⌋ = 0 := max_eq_left hfloor
    unfold _compute_price_cents
    dsimp only
    rw [hmax, hmin]
    norm_num

/-- C3 witness: a concrete degenerate interval (`end <= start`) is charged one
hour at the base rate, and the price is non-negative. -/
theorem compute_price_cents_spec_witness :
    _compute_price_cents 3600 0 none = _rate_for_vehicle_type none
      ∧ 0 ≤ _compute_price_cents 3600 0 none := by
  have h := compute_price_cents_spec 3600 0 none
  exact ⟨h.2.2.2 (by norm_num), h.2.1⟩

/-! ## C1: spot allocator -/

/-- The interval list `_assign_spot` scans for one spot tests exactly the
intervals of the claim-side `spotIntervals` view. -/
lemma assign_pred_eq (lot : String) (s e : ℚ) (spot : Nat) :
    ∀ rows : List Reservation,
      ((takenRows rows lot).filter (fun t => t.1 = spot)).all
          (fun t => !_overlaps s e t.2.1 t.2.2) =
        spotFreeFor rows lot s e spot := by
  intro rows
  induction rows with
  | nil => rfl
  | cons r t ih =>
    simp only [takenRows, spotFreeFor, spotIntervals, List.filterMap_cons] at *
    by_cases hl : r.lot_name = lot
    · by_cases hs : r.status = "confirmed"
      · rcases hsp : r.spot_number with _ | k
        · simp only [hl, hs, hsp] at ih ⊢
          simp at ih ⊢
          exact ih
        · by_cases hk : k = spot
          · subst hk
            simp only [hl, hs, hsp] at ih ⊢
            simp [List.filter_cons] at ih ⊢
            rw [ih]
          · simp only [hl, hs, hsp] at ih ⊢
            simp [List.filter_cons, hk] at ih ⊢
            exact ih
      · simp only [hl, hs] at ih ⊢
        simp at ih ⊢
        exact ih
    · simp only [hl] at ih ⊢
      simp at ih ⊢
      exact ih

/-- `find?` only depends on the predicate extensionally. -/
lemma find?_congr_pred {α : Type} {p q : α → Bool} (h : ∀ x, p x = q x) :
    ∀ l : List α, l.find? p = l.find? q := by
  intro l
  induction l with
  | nil => rfl
  | cons a t ih =>
    by_cases hpa : p a = true
    · rw [List.find?_cons_of_pos _ hpa, List.find?_cons_of_pos _ (h a ▸ hpa)]
    · rw [List.find?_cons_of_neg _ hpa, List.find?_cons_of_neg _ (h a ▸ hpa), ih]

/-- On a strictly ascending list, `find?` returns the minimum satisfying
element. -/
lemma find?_min_of_pairwise {p : Nat → Bool} :
    ∀ l : List Nat, l.Pairwise (· < ·) → ∀ k, l.find? p = some k →
      ∀ j ∈ l, p j = true → k ≤ j := by
  intro l
  induction l with
  | nil => intro _ k h; simp at h
  | cons a t ih =>
    intro hpw k hfind j hj hpj
    by_cases hpa : p a = true
    · rw [List.find?_cons_of_pos _ hpa] at hfind
      injection hfind with hk
      subst hk
      rcases List.mem_cons.mp hj with rfl | hjt
      · exact le_refl _
      · exact le_of_lt ((List.pairwise_cons.mp hpw).1 j hjt)
    · rw [List.find?_cons_of_neg _ hpa] at hfind
      rcases List.mem_cons.mp hj with rfl | hjt
      · exact absurd hpj hpa
      · exact ih (List.pairwise_cons.mp hpw).2 k hfind j hjt hpj

/-- The scanned spot numbers are exactly `1..n`. -/
lemma mem_spotList {n j : Nat} : j ∈ (List.range n).map (fun i => i + 1) ↔ 1 ≤ j ∧ j ≤ n := by
  simp only [List.mem_map, List.mem_range]
  constructor
  · rintro ⟨i, hi, rfl⟩; omega
  · rintro ⟨h1, h2⟩; exact ⟨j - 1, by omega, by omega⟩

/-- The scanned spot numbers are strictly ascending. -/
lemma spotList_pairwise (n : Nat) :
    ((List.range n).map (fun i => i + 1)).Pairwise (· < ·) := by
  rw [List.pairwise_map]
  exact (List.pairwise_lt_range n).imp (by omega)

/-- `_assign_spot` is the first-fit search for a free spot in the claim-side
sense. -/
lemma assign_spot_eq_find (rows : List Reservation) (lot : String) (s e : ℚ) :
    _assign_spot rows lot s e =
      ((List.range LOT_CAPACITY).map (fun i => i + 1)).find?
        (fun spot => spotFreeFor rows lot s e spot) := by
  unfold _assign_spot
  exact find?_congr_pred (fun spot => assign_pred_eq lot s e spot rows) _

/-- `all` is invariant under permutation. -/
lemma perm_all_eq {α : Type} {l1 l2 : List α} (h : l1.Perm l2) (p : α → Bool) :
    l1.all p = l2.all p := by
  have : (l1.all p = true) ↔ (l2.all p = true) := by
    simp only [List.all_eq_true]
    constructor
    · intro ha x hx; exact ha x (h.mem_iff.mpr hx)
    · intro ha x hx; exact ha x (h.mem_iff.mp hx)
  cases h1 : l1.all p <;> cases h2 : l2.all p <;> simp_all

/-- C1.  `_assign_spot` returns the smallest spot number in `1..LOT_CAPACITY`
none of whose recorded confirmed intervals half-open-overlaps the candidate
interval, returns `none` exactly when every spot in range has a conflict, and
is a deterministic function of the reservation *set* (invariant under
permutation of the rows) and the candidate interval. -/
theorem assign_spot_first_fit_correct (rows : List Reservation) (lot : String) (s e : ℚ) :
    (∀ k, _assign_spot rows lot s e = some k →
        1 ≤ k ∧ k ≤ LOT_CAPACITY ∧ spotFreeFor rows lot s e k = true ∧
          ∀ j, 1 ≤ j → j ≤ LOT_CAPACITY → spotFreeFor rows lot s e j = true → k ≤ j)
      ∧ (_assign_spot rows lot s e = none ↔
          ∀ j, 1 ≤ j → j ≤ LOT_CAPACITY → spotFreeFor rows lot s e j = false)
      ∧ (∀ rows2, rows.Perm rows2 → _assign_spot rows lot s e = _assign_spot rows2 lot s e) := by
  rw [assign_spot_eq_find]
  refine ⟨?_, ?_, ?_⟩
  · intro k hfind
    have hmem := List.mem_of_find?_eq_some hfind
    have hbounds := mem_spotList.mp hmem
    refine ⟨hbounds.1, hbounds.2, List.find?_some hfind, ?_⟩
    intro j h1 h2 hfree
    exact find?_min_of_pairwise _ (spotList_pairwise _) k hfind j (mem_spotList.mpr ⟨h1, h2⟩) hfree
  · rw [List.find?_eq_none]
    constructor
    · intro h j h1 h2
      have := h j (mem_spotList.mpr ⟨h1, h2⟩)
      simpa using this
    · intro h x hx
      have hb := mem_spotList.mp hx
      simp [h x hb.1 hb.2]
  · intro rows2 hperm
    rw [assign_spot_eq_find]
    apply find?_congr_pred
    intro spot
    unfold spotFreeFor
    exact perm_all_eq (hperm.filterMap _) _

/-- C1 witness: with spot 1 booked over a conflicting interval, the allocator
returns spot 2, which is within range and free. -/
theorem assign_spot_first_fit_correct_witness :
    1 ≤ 2 ∧ 2 ≤ LOT_CAPACITY ∧ spotFreeFor wRowsC1 "RapidPark-A" 50 150 2 = true := by
  have h := (assign_spot_first_fit_correct wRowsC1 "RapidPark-A" 50 150).1 2 (by decide)
  exact ⟨h.1, h.2.1, h.2.2.1⟩

/-! ## C2: concurrent reserve calls can double-book -/

/-- C2.  On the empty store, two validated reserve calls for the overlapping
intervals `[0, 7200)` and `[3600, 10800)` whose allocation checks both run
before either insert commits (the schedule nothing in `create_reservation`
excludes) are both assigned spot 1, and the resulting store violates the
no-double-booking invariant. -/
theorem interleaved_reserve_double_books :
    (interleavedReserve2 [] 0 7200 3600 10800).2.1 = some 1
      ∧ (interleavedReserve2 [] 0 7200 3600 10800).2.2 = some 1
      ∧ _overlaps 0 7200 3600 10800 = true
      ∧ noDoubleBookingB (interleavedReserve2 [] 0 7200 3600 10800).1 = false := by
  decide

/-! ## C4: capacity exhaustion is a distinct outcome leaving the store
unchanged -/

/-- C4.  When a reserve request passes the whole validation cascade but the
allocator finds no spot, `create_reservation` fails with the 409
capacity-exhausted outcome and the store it returns is the unchanged input
store; every validation rejection, by contrast, carries status 400. -/
theorem reserve_capacity_exhausted_distinct (d : ReservationCreate) (now : ℚ)
    (store : List Reservation) :
    (reserveValidate d now = none →
        _assign_spot store LOT_NAME (d.start_time.getD now) (reserveResolvedEnd d now) = none →
        create_reservation d now store =
          (.error ⟨409, "No spots available for the requested time range"⟩, store))
      ∧ (∀ err, reserveValidate d now = some err → err.status = 400) := by
  constructor
  · intro hval hassign
    unfold reserveValidate at hval
    unfold create_reservation
    split_ifs at hval ⊢ <;> simp_all
  · intro err hval
    unfold reserveValidate at hval
    split_ifs at hval <;> first | (cases hval; rfl) | simp_all

/-- C4 witness: a valid request against the full store gets the 409 outcome
and the store is returned unchanged. -/
theorem reserve_capacity_exhausted_distinct_witness :
    create_reservation wReserveIn 0 wStoreFull =
      (.error ⟨409, "No spots available for the requested time range"⟩, wStoreFull) := by
  exact (reserve_capacity_exhausted_distinct wReserveIn 0 wStoreFull).1 (by decide) (by decide)

/-! ## C5: request validation of `quote` and `create_reservation` -/

/-- A supplied, non-empty vehicle class outside the known three (after
lowercasing) fails the vehicle-type check. -/
lemma vehicleTypeBad_of (vt : String) (h1 : vt ≠ "")
    (h2 : toLowerList vt.toList ≠ "car".toList)
    (h3 : toLowerList vt.toList ≠ "motorcycle".toList)
    (h4 : toLowerList vt.toList ≠ "truck".toList) :
    vehicleTypeBad (some vt) = true := by
  simp [vehicleTypeBad, h1]
  refine ⟨⟨?_, ?_⟩, ?_⟩
  · simpa using h2
  · simpa using h3
  · simpa using h4

/-- C5 counterexample: a quote request that supplies the vehicle class as the
empty string — which is not one of car, motorcycle, truck — is *not* rejected:
the quote succeeds (Python truthiness skips the class check for `""`). -/
theorem quote_accepts_empty_vehicle_type :
    cQuoteEmptyVt.vehicle_type = some ""
      ∧ ("" = "car" ∨ "" = "motorcycle" ∨ "" = "truck") = False
      ∧ (quote cQuoteEmptyVt 0 []).isOk = true := by
  refine ⟨rfl, by simp, by decide⟩

/-- C5 (amended).  For quote requests the end instant is resolved with
precedence `end_time` > `duration_hours` > `duration_minutes` (for reserve
requests, whose schema has no `duration_minutes` field, `end_time` >
`duration_hours`); a request supplying none of them, or whose resolved end is
not strictly after the start (start defaulting to `now`), or supplying a
non-empty vehicle class that lowercased is not one of car, motorcycle, truck,
is rejected with a status-400 validation error computed from the request
alone: the same error is returned for every store, the store is returned
unchanged by reserve, and when validation passes the quote succeeds. -/
theorem quote_reserve_validation_spec (dq : QuoteIn) (dr : ReservationCreate) (now : ℚ)
    (store store2 : List Reservation) :
    (∀ e0, dq.end_time = some e0 → resolveEnd dq (dq.start_time.getD now) = some e0)
    ∧ (dq.end_time = none → ∀ h0, dq.duration_hours = some h0 →
        resolveEnd dq (dq.start_time.getD now) = some (dq.start_time.getD now + h0 * 3600))
    ∧ (dq.end_time = none → dq.duration_hours = none → ∀ m0, dq.duration_minutes = some m0 →
        resolveEnd dq (dq.start_time.getD now) = some (dq.start_time.getD now + (m0 : ℚ) * 60))
    ∧ (dq.end_time = none → dq.duration_hours = none → dq.duration_minutes = none →
        (quoteValidate dq now).isSome = true)
    ∧ (∀ e0, resolveEnd dq (dq.start_time.getD now) = some e0 →
        e0 ≤ dq.start_time.getD now → (quoteValidate dq now).isSome = true)
    ∧ (∀ vt, dq.vehicle_type = some vt → vt ≠ "" →
        toLowerList vt.toList ≠ "car".toList → toLowerList vt.toList ≠ "motorcycle".toList →
        toLowerList vt.toList ≠ "truck".toList → (quoteValidate dq now).isSome = true)
    ∧ (∀ err, quoteValidate dq now = some err →
        err.status = 400 ∧ quote dq now store = .error err ∧ quote dq now store2 = .error err)
    ∧ (quoteValidate dq now = none → (quote dq now store).isOk = true)
    ∧ (∀ e0, dr.end_time = some e0 → reserveResolvedEnd dr now = e0)
    ∧ (dr.end_time = none → ∀ h0, dr.duration_hours = some h0 →
        reserveResolvedEnd dr now = dr.start_time.getD now + h0 * 3600)
    ∧ (dr.end_time = none → dr.duration_hours = none → (reserveValidate dr now).isSome = true)
    ∧ (dr.vehicle_reg ≠ "" → dr.customer_name ≠ "" →
        reserveResolvedEnd dr now ≤ dr.start_time.getD now →
        (reserveValidate dr now).isSome = true)
    ∧ (∀ vt, dr.vehicle_type = some vt → vt ≠ "" →
        toLowerList vt.toList ≠ "car".toList → toLowerList vt.toList ≠ "motorcycle".toList →
        toLowerList vt.toList ≠ "truck".toList → (reserveValidate dr now).isSome = true)
    ∧ (∀ err, reserveValidate dr now = some err →
        err.status = 400 ∧ create_reservation dr now store = (.error err, store)) := by
  refine ⟨?_, ?_, ?_, ?_, ?_, ?_, ?_, ?_, ?_, ?_, ?_, ?_, ?_, ?_⟩
  · intro e0 he; simp [resolveEnd, he]
  · intro he h0 hh; simp [resolveEnd, he, hh]
  · intro he hh m0 hm; simp [resolveEnd, he, hh, hm]
  · intro he hh hm
    unfold quoteValidate
    split_ifs <;> simp_all [resolveEnd]
  · intro e0 hres hle
    simp only [quoteValidate]
    split_ifs <;> simp_all [hres]
  · intro vt hvt h1 h2 h3 h4
    have hbad := vehicleTypeBad_of vt h1 h2 h3 h4
    unfold quoteValidate
    split_ifs <;> simp_all
  · intro err hval
    by_cases hreg : dq.vehicle_reg = ""
    · simp only [quoteValidate, if_pos hreg] at hval
      injection hval with h
      subst h
      refine ⟨rfl, ?_, ?_⟩ <;> simp [quote, hreg]
    · by_cases hbad : vehicleTypeBad dq.vehicle_type = true
      · simp only [quoteValidate, if_neg hreg, if_pos hbad] at hval
        injection hval with h
        subst h
        refine ⟨rfl, ?_, ?_⟩ <;> simp [quote, hreg, hbad]
      · simp only [quoteValidate, if_neg hreg, if_neg hbad] at hval
        rcases hres : resolveEnd dq (dq.start_time.getD now) with _ | e1
        · simp only [hres] at hval
          injection hval with h
          subst h
          refine ⟨rfl, ?_, ?_⟩ <;> simp [quote, hreg, hbad, hres]
        · simp only [hres] at hval
          by_cases hle : e1 ≤ dq.start_time.getD now
          · rw [if_pos hle] at hval
            injection hval with h
            subst h
            refine ⟨rfl, ?_, ?_⟩ <;> simp [quote, hreg, hbad, hres, hle]
          · rw [if_neg hle] at hval
            exact absurd hval (by simp)
  · intro hval
    by_cases hreg : dq.vehicle_reg = ""
    · simp only [quoteValidate, if_pos hreg] at hval
      cases hval
    · by_cases hbad : vehicleTypeBad dq.vehicle_type = true
      · simp only [quoteValidate, if_neg hreg, if_pos hbad] at hval
        cases hval
      · simp only [quoteValidate, if_neg hreg, if_neg hbad] at hval
        rcases hres : resolveEnd dq (dq.start_time.getD now) with _ | e1
        · simp only [hres] at hval
          cases hval
        · simp only [hres] at hval
          by_cases hle : e1 ≤ dq.start_time.getD now
          · rw [if_pos hle] at hval
            cases hval
          · simp [quote, hreg, hbad, hres, hle, Except.isOk, Except.toBool]
  · intro e0 he; simp [reserveResolvedEnd, he]
  · intro he h0 hh; simp [reserveResolvedEnd, he, hh]
  · intro he hh
    unfold reserveValidate
    split_ifs <;> simp_all
  · intro hreg hname hle
    unfold reserveValidate
    split_ifs <;> simp_all
  · intro vt hvt h1 h2 h3 h4
    have hbad := vehicleTypeBad_of vt h1 h2 h3 h4
    unfold reserveValidate
    split_ifs <;> simp_all
  · intro err hval
    unfold reserveValidate at hval
    simp only [create_reservation]
    split_ifs at hval ⊢ <;> first | (cases hval; exact ⟨rfl, rfl⟩) | simp_all

/-- C5 witness: the concrete quote request with no end time, no duration-hours
and no duration-minutes is rejected, and the rejection is the same status-400
error on two different stores. -/
theorem quote_reserve_validation_spec_witness :
    (quoteValidate wQuoteNoEnd 0).isSome = true
      ∧ quote wQuoteNoEnd 0 [] =
          .error ⟨400, "Provide end_time, duration_hours, or duration_minutes"⟩
      ∧ quote wQuoteNoEnd 0 wRowsC1 =
          .error ⟨400, "Provide end_time, duration_hours, or duration_minutes"⟩ := by
  have h := quote_reserve_validation_spec wQuoteNoEnd wReserveIn 0 [] wRowsC1
  have herr :=
    h.2.2.2.2.2.2.1 ⟨400, "Provide end_time, duration_hours, or duration_minutes"⟩ (by rfl)
  exact ⟨h.2.2.2.1 rfl rfl rfl, herr.2.1, herr.2.2⟩

/-! ## C6: confirmation code format -/

/-- C6.  The confirmation code is exactly `RP-`, the vehicle id with spaces
removed and uppercased, `-`, and the start instant as `MMDDHHmm` (eight
zero-padded digits); the generator is a pure function, so calling it twice on
the same id and instant yields the same code. -/
theorem generate_code_format (reg : List Char) (dt : PyDateTime) :
    _generate_code reg dt =
        "RP-".toList ++ ((reg.filter (fun c => c ≠ ' ')).map Char.toUpper) ++
          '-' :: (pad2 dt.month ++ pad2 dt.day ++ pad2 dt.hour ++ pad2 dt.minute)
      ∧ (strftimeMMDDHHMM dt).length = 8
      ∧ (∀ reg2 dt2, reg = reg2 → dt = dt2 → _generate_code reg dt = _generate_code reg2 dt2) := by
  refine ⟨rfl, rfl, ?_⟩
  intro reg2 dt2 h1 h2
  rw [h1, h2]

/-- C6 witness: the generator is idempotent on a concrete id and instant, and
the timestamp part has eight characters there. -/
theorem generate_code_format_witness :
    _generate_code "ka 01 ab 1234".toList ⟨2024, 1, 1, 10, 0, 0⟩ =
        _generate_code "ka 01 ab 1234".toList ⟨2024, 1, 1, 10, 0, 0⟩
      ∧ (strftimeMMDDHHMM ⟨2024, 1, 1, 10, 0, 0⟩).length = 8 := by
  have h := generate_code_format "ka 01 ab 1234".toList ⟨2024, 1, 1, 10, 0, 0⟩
  exact ⟨h.2.2 _ _ rfl rfl, h.2.1⟩

/-! ## C7: confirmation-code uniqueness -/

/-- C7 counterexample: two different start instants (same clock time, one year
apart) produce the *same* confirmation code for the same vehicle id, because
the timestamp records only month, day, hour and minute. -/
theorem generate_code_year_collision :
    (⟨2024, 1, 1, 10, 0, 0⟩ : PyDateTime) ≠ ⟨2025, 1, 1, 10, 0, 0⟩
      ∧ _generate_code "KA01AB1234".toList ⟨2024, 1, 1, 10, 0, 0⟩ =
          _generate_code "KA01AB1234".toList ⟨2025, 1, 1, 10, 0, 0⟩ := by
  decide

/-- C7 (amended).  The code generator is injective on the pair (normalized
vehicle id, `MMDDHHmm` rendering of the start instant): two codes coincide
exactly when the normalized ids coincide and the `MMDDHHmm` strings coincide
— but not on the start instant itself, which the code records only up to
month, day, hour and minute. -/
theorem generate_code_injective_normalized (r1 r2 : List Char) (d1 d2 : PyDateTime) :
    _generate_code r1 d1 = _generate_code r2 d2 ↔
      (pyUpperNoSpaces r1 = pyUpperNoSpaces r2 ∧ strftimeMMDDHHMM d1 = strftimeMMDDHHMM d2) := by
  constructor
  · intro h
    unfold _generate_code at h
    rw [List.append_assoc, List.append_assoc] at h
    have h2 := List.append_cancel_left h
    have hlen : ('-' :: strftimeMMDDHHMM d1).length = ('-' :: strftimeMMDDHHMM d2).length := rfl
    have h3 := List.append_inj' h2 hlen
    exact ⟨h3.1, by injection h3.2⟩
  · intro h
    unfold _generate_code
    rw [h.1, h.2]

/-- C7 witness for the amended direction: ids differing only in spacing and
case normalize identically, so the codes coincide. -/
theorem generate_code_injective_normalized_witness :
    _generate_code "ka 01 ab 1234".toList ⟨2024, 1, 1, 10, 0, 0⟩ =
      _generate_code "KA01AB1234".toList ⟨2024, 1, 1, 10, 0, 0⟩ := by
  exact (generate_code_injective_normalized _ _ _ _).mpr ⟨by decide, rfl⟩

/-! ## C10: arrival-time extraction -/

/-- `daysBeforeMonth` steps by the month length. -/
lemma daysBeforeMonth_succ (y m : Nat) (hm : 1 ≤ m) :
    daysBeforeMonth y (m + 1) = daysBeforeMonth y m + daysInMonth y m := by
  rcases m with _ | k
  · omega
  · rw [daysBeforeMonth]
    rw [if_neg (Nat.succ_ne_zero k)]

/-- `leapsBefore` steps by one exactly on leap years. -/
lemma leapsBefore_succ (y : Nat) (hy : 1 ≤ y) :
    leapsBefore (y + 1) = leapsBefore y + (if isLeapYear y then 1 else 0) := by
  have e4 : y / 4 = (y - 1) / 4 + if 4 ∣ y then 1 else 0 := by
    conv_lhs => rw [show y = (y - 1) + 1 by omega]
    rw [Nat.succ_div]
    rw [show y - 1 + 1 = y by omega]
  have e100 : y / 100 = (y - 1) / 100 + if 100 ∣ y then 1 else 0 := by
    conv_lhs => rw [show y = (y - 1) + 1 by omega]
    rw [Nat.succ_div]
    rw [show y - 1 + 1 = y by omega]
  have e400 : y / 400 = (y - 1) / 400 + if 400 ∣ y then 1 else 0 := by
    conv_lhs => rw [show y = (y - 1) + 1 by omega]
    rw [Nat.succ_div]
    rw [show y - 1 + 1 = y by omega]
  have hm1 : (y - 1) / 100 ≤ (y - 1) / 4 := Nat.div_le_div_left (by norm_num) (by norm_num)
  have hm2 : (y - 1) / 400 ≤ (y - 1) / 100 := Nat.div_le_div_left (by norm_num) (by norm_num)
  have hm3 : y / 100 ≤ y / 4 := Nat.div_le_div_left (by norm_num) (by norm_num)
  have hm4 : y / 400 ≤ y / 100 := Nat.div_le_div_left (by norm_num) (by norm_num)
  unfold leapsBefore
  rw [show y + 1 - 1 = y from rfl]
  by_cases d4 : 4 ∣ y
  · by_cases d100 : 100 ∣ y
    · by_cases d400 : 400 ∣ y
      · have hl : isLeapYear y = true := by simp [isLeapYear]; omega
        have hL : (if isLeapYear y then 1 else 0) = 1 := by simp [hl]
        rw [hL]
        rw [if_pos d4] at e4
        rw [if_pos d100] at e100
        rw [if_pos d400] at e400
        omega
      · have hl : isLeapYear y = false := by simp [isLeapYear]; omega
        have hL : (if isLeapYear y then 1 else 0) = 0 := by simp [hl]
        rw [hL]
        rw [if_pos d4] at e4
        rw [if_pos d100] at e100
        rw [if_neg d400] at e400
        omega
    · have hnd400 : ¬ 400 ∣ y := fun h => d100 (dvd_trans (by norm_num) h)
      have hl : isLeapYear y = true := by simp [isLeapYear]; omega
      have hL : (if isLeapYear y then 1 else 0) = 1 := by simp [hl]
      rw [hL]
      rw [if_pos d4] at e4
      rw [if_neg d100] at e100
      rw [if_neg hnd400] at e400
      omega
  · have hnd400 : ¬ 400 ∣ y := fun h => d4 (dvd_trans (by norm_num) h)
    have hl : isLeapYear y = false := by simp [isLeapYear]; omega
    have hL : (if isLeapYear y then 1 else 0) = 0 := by simp [hl]
    rw [hL]
    by_cases d100 : 100 ∣ y
    · rw [if_neg d4] at e4
      rw [if_pos d100] at e100
      rw [if_neg hnd400] at e400
      omega
    · rw [if_neg d4] at e4
      rw [if_neg d100] at e100
      rw [if_neg hnd400] at e400
      omega

/-- Every month has at least one day. -/
lemma daysInMonth_pos (y m : Nat) : 1 ≤ daysInMonth y m := by
  unfold daysInMonth
  split_ifs <;> omega

/-- `addOneDay` advances the linear timestamp by exactly 86400 seconds on
every valid datetime, including month and year rollovers. -/
lemma addOneDay_toSec (dt : PyDateTime) (hy : 1 ≤ dt.year) (hm1 : 1 ≤ dt.month)
    (hm2 : dt.month ≤ 12) (hd1 : 1 ≤ dt.day) (hd2 : dt.day ≤ daysInMonth dt.year dt.month) :
    toSec (addOneDay dt) = toSec dt + 86400 := by
  unfold addOneDay
  by_cases h1 : dt.day < daysInMonth dt.year dt.month
  · rw [if_pos h1]
    unfold toSec toDays
    dsimp only
    omega
  · rw [if_neg h1]
    have hde : dt.day = daysInMonth dt.year dt.month := by omega
    have hdp := daysInMonth_pos dt.year dt.month
    by_cases h2 : dt.month < 12
    · rw [if_pos h2]
      unfold toSec toDays
      dsimp only
      rw [daysBeforeMonth_succ dt.year dt.month hm1]
      omega
    · rw [if_neg h2]
      have hme : dt.month = 12 := by omega
      unfold toSec toDays
      dsimp only
      rw [leapsBefore_succ dt.year hy]
      rw [hme] at hde ⊢
      have hdim : daysInMonth dt.year 12 = 31 := by simp [daysInMonth]
      rw [hdim] at hde
      by_cases hle : isLeapYear dt.year
      · have hdbm : daysBeforeMonth dt.year 12 = 335 := by
          simp [daysBeforeMonth, daysInMonth, hle]
        have hL : (if isLeapYear dt.year then 1 else 0) = 1 := by simp [hle]
        rw [hdbm, hL]
        have hdbm1 : daysBeforeMonth (dt.year + 1) 1 = 0 := by simp [daysBeforeMonth]
        rw [hdbm1]
        omega
      · have hdbm : daysBeforeMonth dt.year 12 = 334 := by
          simp [daysBeforeMonth, daysInMonth, hle]
        have hL : (if isLeapYear dt.year then 1 else 0) = 0 := by simp [hle]
        rw [hdbm, hL]
        have hdbm1 : daysBeforeMonth (dt.year + 1) 1 = 0 := by simp [daysBeforeMonth]
        rw [hdbm1]
        omega

/-- C10.  `parse_arrival` is exactly the pipeline: today/tomorrow substitution,
`" at "` stripping, default-fill parse against `now`, and — whenever the parsed
instant lies more than five minutes in the past of `now` — the addition of
exactly one calendar day, which advances the timestamp by exactly 86400
seconds on every valid datetime; on the clock 2024-01-01T10:00, `today at 3
PM` parses to 2024-01-01T15:00 and `today at 3 AM` rolls to
2024-01-02T03:00. -/
theorem parse_arrival_spec :
    (∀ (now : PyDateTime) (utt : List Char) (dt : PyDateTime),
        trimList utt ≠ [] →
        dateutilParse now (preprocessArrival now utt) = some dt →
        parse_arrival now utt =
          some (if toSec dt + 300 < toSec now then addOneDay dt else dt))
    ∧ (∀ dt : PyDateTime, 1 ≤ dt.year → 1 ≤ dt.month → dt.month ≤ 12 → 1 ≤ dt.day →
        dt.day ≤ daysInMonth dt.year dt.month → toSec (addOneDay dt) = toSec dt + 86400)
    ∧ parse_arrival wNow2024 "today at 3 PM".toList = some ⟨2024, 1, 1, 15, 0, 0⟩
    ∧ parse_arrival wNow2024 "today at 3 AM".toList = some ⟨2024, 1, 2, 3, 0, 0⟩ := by
  refine ⟨?_, ?_, by decide, by decide⟩
  · intro now utt dt hne hparse
    unfold parse_arrival
    rw [if_neg hne]
    rw [hparse]
  · intro dt h1 h2 h3 h4 h5
    exact addOneDay_toSec dt h1 h2 h3 h4 h5

/-- C10 witness: the 3 AM utterance parses to 03:00 which is more than five
minutes before the 10:00 clock, so the result is the parse plus one day; and
one concrete year-rollover instant advances by exactly 86400 seconds. -/
theorem parse_arrival_spec_witness :
    parse_arrival wNow2024 "today at 3 AM".toList = some (addOneDay ⟨2024, 1, 1, 3, 0, 0⟩)
      ∧ toSec (addOneDay ⟨2024, 12, 31, 23, 59, 59⟩) =
          toSec ⟨2024, 12, 31, 23, 59, 59⟩ + 86400 := by
  constructor
  · have h := parse_arrival_spec.1 wNow2024 "today at 3 AM".toList ⟨2024, 1, 1, 3, 0, 0⟩
      (by decide) (by decide)
    rw [h]
    decide
  · exact parse_arrival_spec.2.1 ⟨2024, 12, 31, 23, 59, 59⟩ (by decide) (by decide) (by decide)
      (by decide) (by decide)

/-! ## C9: a session in CONFIRM always holds a quote -/

/-- Reachability invariant: every reachable session in COLLECT_EMAIL or
CONFIRM_RESERVATION stores a quote.  The machine sets the quote exactly when
it leaves COLLECT_DURATION, never clears it, and every downstream failure in
COLLECT_DURATION keeps the state unchanged. -/
lemma reachable_email_confirm_quote (ctx : AgentContext) (h : Reachable ctx) :
    (ctx.state = .collect_email ∨ ctx.state = .confirm_reservation) → ctx.quote.isSome = true := by
  induction h with
  | init =>
    intro h
    rcases h with h | h <;> simp [initialContext] at h
  | step env msg c hc ih =>
    intro hst
    rcases hsc : c.state with _ | _ | _ | _ | _ | _ | _ | _ | _
    · simp [handle_conversation, hsc] at hst
    · simp only [handle_conversation, hsc] at hst ⊢
      split at hst <;> simp_all
    · simp only [handle_conversation, hsc] at hst ⊢
      split at hst <;> simp_all
    · simp only [handle_conversation, hsc] at hst ⊢
      split at hst <;> simp_all
    · simp only [handle_conversation, hsc] at hst ⊢
      rcases hpd : env.parseDuration with _ | dh <;> simp only [hpd] at hst ⊢
      · simp_all
      · rcases hq : env.quoteRes with _ | q <;> simp only [hq] at hst ⊢
        · simp_all
        · simp
    · have hsome := ih (Or.inl hsc)
      rcases hq : c.quote with _ | q
      · rw [hq] at hsome; cases hsome
      · simp only [handle_conversation, confirmAdvance, hsc] at hst ⊢
        rcases hpe : env.parseEmail with _ | em <;> simp only [hpe] at hst ⊢ <;>
          split at hst <;> simp_all
    · simp [handle_conversation, hsc] at hst
    · have hsome := ih (Or.inr hsc)
      simp only [handle_conversation, hsc] at hst ⊢
      rcases hrr : env.reserveRes with _ | r <;> simp only [hrr] at hst ⊢ <;>
        split at hst <;> simp_all
    · simp [handle_conversation, hsc] at hst

/-- C9.  Every reachable session in the CONFIRM state holds a stored quote
(whose record carries a price), and a downstream failure during
COLLECT_DURATION — the duration parse or the quote call raising — leaves the
session in COLLECT_DURATION with its quote unchanged. -/
theorem confirm_state_has_quote :
    (∀ ctx, Reachable ctx → ctx.state = .confirm_reservation → ctx.quote.isSome = true)
    ∧ (∀ (env : DialogEnv) (msg : List Char) (c : AgentContext),
        c.state = .collect_duration →
        env.parseDuration = none ∨ env.quoteRes = none →
        (handle_conversation env msg c).1.state = .collect_duration
        ∧ (handle_conversation env msg c).1.quote = c.quote) := by
  constructor
  · intro ctx h hst
    exact reachable_email_confirm_quote ctx h (Or.inr hst)
  · intro env msg c hst hfail
    simp only [handle_conversation, hst]
    rcases hpd : env.parseDuration with _ | dh
    · simp [hst]
    · rcases hq : env.quoteRes with _ | q
      · simp [hst]
      · rcases hfail with h | h
        · rw [hpd] at h; cases h
        · rw [hq] at h; cases h

/-- C9 witness: the six-turn happy-path dialogue reaches CONFIRM, and the
theorem yields that its session stores a quote. -/
theorem confirm_state_has_quote_witness :
    wCtx6.state = .confirm_reservation ∧ wCtx6.quote.isSome = true := by
  have hreach : Reachable wCtx6 :=
    Reachable.step {} ("skip".toList) wCtx5
      (Reachable.step wEnvQuote ("2 hours".toList) wCtx4
        (Reachable.step wEnvQuote ("today at 3 pm".toList) wCtx3
          (Reachable.step {} ("ABC-1234, car".toList) wCtx2
            (Reachable.step {} ("John Doe".toList) wCtx1
              (Reachable.step {} ("hi".toList) initialContext Reachable.init)))))
  exact ⟨by decide, confirm_state_has_quote.1 wCtx6 hreach (by decide)⟩

/-! ## C8: CONFIRM creates a reservation only on an affirmative utterance -/

/-- C8.  In the CONFIRM state: a non-affirmative utterance (one containing
none of the affirmative keywords) moves the session to COMPLETED with the
cancellation message, ends the call, leaves the reservation unchanged (none is
created) and never consults the reserve call; and whenever the turn ends with
a stored reservation that was not already there, the utterance was
affirmative. -/
theorem confirm_state_requires_affirmative (env : DialogEnv) (msg : List Char)
    (ctx : AgentContext) (hstate : ctx.state = .confirm_reservation) :
    (isAffirmative (toLowerList msg) = false →
        (handle_conversation env msg ctx).1.state = .completed
        ∧ (handle_conversation env msg ctx).1.reservation = ctx.reservation
        ∧ (handle_conversation env msg ctx).2.message = .cancelledFinal
        ∧ (handle_conversation env msg ctx).2.end_call = true
        ∧ (∀ r, handle_conversation { env with reserveRes := r } msg ctx =
            handle_conversation env msg ctx))
    ∧ (∀ resv, (handle_conversation env msg ctx).1.reservation = some resv →
        ctx.reservation = some resv ∨ isAffirmative (toLowerList msg) = true) := by
  constructor
  · intro hneg
    simp only [handle_conversation, hstate, hneg]
    simp
  · intro resv hres
    by_cases haff : isAffirmative (toLowerList msg) = true
    · right; exact haff
    · left
      simp only [handle_conversation, hstate] at hres
      simp only [Bool.not_eq_true] at haff
      simp only [haff] at hres
      simp at hres
      exact hres

/-- C8 witness: the utterance `no thanks` in CONFIRM completes the session
with the cancellation message, ends the call, and creates no reservation. -/
theorem confirm_state_requires_affirmative_witness :
    (handle_conversation {} "no thanks".toList wCtxConfirm).1.state = .completed
      ∧ (handle_conversation {} "no thanks".toList wCtxConfirm).1.reservation = none
      ∧ (handle_conversation {} "no thanks".toList wCtxConfirm).2.message = .cancelledFinal
      ∧ (handle_conversation {} "no thanks".toList wCtxConfirm).2.end_call = true := by
  have h := (confirm_state_requires_affirmative {} ("no thanks".toList) wCtxConfirm rfl).1
    (by decide)
  exact ⟨h.1, h.2.1, h.2.2.1, h.2.2.2.1⟩
